import Mathlib

/-!
Shallow embedding of the audio streaming core of the nes-arcade repository
(the AudioHandler class and its callers in NesEmulator), together with
theorems settling the specification claims about it.

Samples are modelled as rationals (the source stores IEEE doubles /
Float32Array entries; every claim here only exercises exact values such as
0, 1, -1 and exact operations such as clamping and multiplication by 0 or
1, for which rational arithmetic is a faithful model).  The two per-channel
chunk queues bufferL / bufferR of the source are modelled as two lists of
chunks, a chunk being a list of rationals.  The staging arrays captured by
the closure returned from getSampleCallback are part of the state.
-/

namespace NesArcade

/-- State of the audio subsystem: the two staging arrays captured by the
sample callback closure, the two chunk queues, the volume and mute flags,
and booleans recording whether the AudioContext / ScriptProcessorNode are
currently allocated and whether the context is suspended. -/
structure AudioState where
  stagingL : List ℚ
  stagingR : List ℚ
  bufL : List (List ℚ)
  bufR : List (List ℚ)
  volume : ℚ
  muted : Bool
  ctx : Bool
  node : Bool
  suspended : Bool

/-- The state of a freshly constructed AudioHandler: empty staging and
queues, volume 1.0, not muted, no audio context yet. -/
def initState : AudioState :=
  { stagingL := [], stagingR := [], bufL := [], bufR := [],
    volume := 1, muted := false, ctx := false, node := false,
    suspended := false }

/-- One invocation of the per-sample callback returned by
getSampleCallback: push the pair onto the staging arrays and, once the
left staging array has reached 2048 entries, seal both into chunks pushed
onto the queues and reset the staging arrays. -/
def submit (l r : ℚ) (st : AudioState) : AudioState :=
  let sL := st.stagingL ++ [l]
  let sR := st.stagingR ++ [r]
  if 2048 ≤ sL.length then
    { st with bufL := st.bufL ++ [sL], bufR := st.bufR ++ [sR],
              stagingL := [], stagingR := [] }
  else
    { st with stagingL := sL, stagingR := sR }

/-- A sequence of sample-callback invocations, first element first. -/
def submitMany (xs : List (ℚ × ℚ)) (st : AudioState) : AudioState :=
  xs.foldl (fun s p => submit p.1 p.2 s) st

/-- The while loop of the onaudioprocess handler, recursing on the left
queue.  Arguments: the volume, the two queues, and the number of output
frames still to fill.  Returns the frames written to each channel (already
scaled by the volume) and the two queues as left after the loop.  The loop
guard of the source tests only the left queue; when a chunk is only partly
consumed the remaining frame count has been exhausted, so the loop exits
right after truncating the head chunks.  The right-channel reads are
modelled with getD; under the channel-synchronisation invariant proved
below the index is always in bounds, matching the source. -/
def pullLoop (vol : ℚ) : List (List ℚ) → List (List ℚ) → Nat →
    List ℚ × List ℚ × List (List ℚ) × List (List ℚ)
  | [], bufR, _ => ([], [], [], bufR)
  | cL :: restL, bufR, n =>
    if n = 0 then ([], [], cL :: restL, bufR)
    else
      let cR := bufR.headD []
      let toCopy := min n cL.length
      let segL := (cL.take toCopy).map (fun x => x * vol)
      let segR := (List.range toCopy).map (fun i => cR.getD i 0 * vol)
      if toCopy < cL.length then
        (segL, segR, cL.drop toCopy :: restL, cR.drop toCopy :: bufR.tail)
      else
        let res := pullLoop vol restL bufR.tail (n - toCopy)
        (segL ++ res.1, segR ++ res.2.1, res.2.2.1, res.2.2.2)

/-- One invocation of the onaudioprocess handler with block length B.
If muted, write B frames of silence on both channels and clear both
queues.  Otherwise run the copy loop, zero-pad the remainder of the block,
and finally trim the queues so that at most 3 chunks stay buffered
(dropping the oldest; the source tests the left queue's length and splices
each queue by its own length). -/
def audioProcess (B : Nat) (st : AudioState) :
    (List ℚ × List ℚ) × AudioState :=
  if st.muted then
    ((List.replicate B 0, List.replicate B 0),
     { st with bufL := [], bufR := [] })
  else
    let res := pullLoop st.volume st.bufL st.bufR B
    let outL := res.1 ++ List.replicate (B - res.1.length) 0
    let outR := res.2.1 ++ List.replicate (B - res.2.1.length) 0
    let bL := res.2.2.1
    let bR := res.2.2.2
    let bL2 := if 3 < bL.length then bL.drop (bL.length - 3) else bL
    let bR2 := if 3 < bL.length then bR.drop (bR.length - 3) else bR
    ((outL, outR), { st with bufL := bL2, bufR := bR2 })

/-- AudioHandler.start: a no-op when an AudioContext already exists;
otherwise allocate the context and the script node (registering the
onaudioprocess callback). -/
def start (st : AudioState) : AudioState :=
  if st.ctx then st else { st with ctx := true, node := true }

/-- AudioHandler.stop: release the node and the context and clear both
chunk queues. -/
def stop (st : AudioState) : AudioState :=
  { st with node := false, ctx := false, bufL := [], bufR := [] }

/-- AudioHandler.resume: unsuspend the context when it exists and is
suspended; the chunk queues are not touched. -/
def resume (st : AudioState) : AudioState :=
  if st.ctx && st.suspended then { st with suspended := false } else st

/-- The volume setter (NesEmulator.setVolume delegates to it): clamp the
argument with max 0 (min 1 v). -/
def setVolume (v : ℚ) (st : AudioState) : AudioState :=
  { st with volume := max 0 (min 1 v) }

/-- The volume getter. -/
def getVolume (st : AudioState) : ℚ := st.volume

/-- AudioHandler.toggleMute: flip the muted flag and return its new
value. -/
def toggleMute (st : AudioState) : Bool × AudioState :=
  (!st.muted, { st with muted := !st.muted })

/-- The Stopped lifecycle state: no device resources held and both chunk
queues empty. -/
def Stopped (st : AudioState) : Prop :=
  st.ctx = false ∧ st.node = false ∧ st.bufL = [] ∧ st.bufR = []

/-- Channel synchronisation: the two chunk queues have the same length
chunkwise-pairwise (corresponding chunks have equal length) and the two
staging arrays have equal length. -/
def Sync (st : AudioState) : Prop :=
  List.Forall₂ (fun a b => a.length = b.length) st.bufL st.bufR ∧
  st.stagingL.length = st.stagingR.length

/-- The operations a client can interleave on the audio subsystem. -/
inductive Op where
  | submit (l r : ℚ)
  | process (B : Nat)
  | start
  | stop
  | resume
  | setVolume (v : ℚ)
  | toggleMute

/-- Apply one operation to the state. -/
def step (st : AudioState) : Op → AudioState
  | .submit l r => submit l r st
  | .process B => (audioProcess B st).2
  | .start => start st
  | .stop => stop st
  | .resume => resume st
  | .setVolume v => setVolume v st
  | .toggleMute => (toggleMute st).2

/-- Run a sequence of operations, first element first. -/
def run (ops : List Op) (st : AudioState) : AudioState :=
  ops.foldl step st

/-- A chunk holding 2048 copies of one value, as the sample callback seals
when fed a constant signal. -/
def chunk (x : ℚ) : List ℚ := List.replicate 2048 x

/-- The four-distinct-chunk input of the eviction-policy scenario: 8192
samples whose value identifies which chunk they land in. -/
def fourChunksInput : List (ℚ × ℚ) :=
  List.replicate 2048 ((1 : ℚ), (1 : ℚ)) ++
    (List.replicate 2048 (2, 2) ++
      (List.replicate 2048 (3, 3) ++ List.replicate 2048 (4, 4)))

/-! ### Helper lemmas about submit -/

theorem submitMany_append (xs ys : List (ℚ × ℚ)) (st : AudioState) :
    submitMany (xs ++ ys) st = submitMany ys (submitMany xs st) := by
  simp [submitMany, List.foldl_append]

theorem submit_stage (l r : ℚ) (st : AudioState)
    (h : st.stagingL.length < 2047) :
    submit l r st =
      { st with stagingL := st.stagingL ++ [l],
                stagingR := st.stagingR ++ [r] } := by
  have hno : ¬ 2048 ≤ (st.stagingL ++ [l]).length := by
    simp only [List.length_append, List.length_singleton]
    omega
  simp [submit, hno]
  omega

theorem submit_push (l r : ℚ) (st : AudioState)
    (h : st.stagingL.length = 2047) :
    submit l r st =
      { st with bufL := st.bufL ++ [st.stagingL ++ [l]],
                bufR := st.bufR ++ [st.stagingR ++ [r]],
                stagingL := [], stagingR := [] } := by
  have hyes : 2048 ≤ (st.stagingL ++ [l]).length := by
    simp only [List.length_append, List.length_singleton]
    omega
  simp [submit, hyes]
  omega

theorem submitMany_replicate_small (k : Nat) (l r : ℚ) (st : AudioState)
    (h : st.stagingL.length + k ≤ 2047) :
    submitMany (List.replicate k (l, r)) st =
      { st with stagingL := st.stagingL ++ List.replicate k l,
                stagingR := st.stagingR ++ List.replicate k r } := by
  induction k generalizing st with
  | zero => simp [submitMany]
  | succ n ih =>
    rw [List.replicate_succ]
    have hstep : submitMany ((l, r) :: List.replicate n (l, r)) st =
        submitMany (List.replicate n (l, r)) (submit l r st) := rfl
    rw [hstep, submit_stage l r st (by omega)]
    have hlen : (st.stagingL ++ [l]).length + n ≤ 2047 := by
      simp only [List.length_append, List.length_singleton]
      omega
    have ih2 := ih { st with stagingL := st.stagingL ++ [l],
                             stagingR := st.stagingR ++ [r] } hlen
    rw [ih2]
    simp only [List.append_assoc, List.singleton_append, List.replicate_succ]

theorem submitMany_replicate_chunk (l r : ℚ) (st : AudioState)
    (hL : st.stagingL = []) (hR : st.stagingR = []) :
    submitMany (List.replicate 2048 (l, r)) st =
      { st with bufL := st.bufL ++ [List.replicate 2048 l],
                bufR := st.bufR ++ [List.replicate 2048 r],
                stagingL := [], stagingR := [] } := by
  have h2048 : (2048 : Nat) = 2047 + 1 := by norm_num
  have hrep : ∀ x : ℚ × ℚ, List.replicate 2048 x = List.replicate 2047 x ++ [x] := by
    intro x
    rw [h2048]
    exact List.replicate_succ' 2047 x
  have hrepQ : ∀ x : ℚ, List.replicate 2047 x ++ [x] = List.replicate 2048 x := by
    intro x
    rw [h2048]
    exact (List.replicate_succ' 2047 x).symm
  have hstep : ∀ Y : AudioState,
      submitMany [(l, r)] Y = submit l r Y := fun Y => rfl
  have hsmall : st.stagingL.length + 2047 ≤ 2047 := by rw [hL]; simp
  rw [hrep, submitMany_append, submitMany_replicate_small 2047 l r st hsmall,
    hstep, submit_push]
  · rw [hL, hR]
    simp only [List.nil_append, hrepQ]
  · rw [hL]
    simp only [List.nil_append, List.length_replicate]

/-! ### Helper lemmas about the copy loop -/

theorem pullLoop_nil (vol : ℚ) (bufR : List (List ℚ)) (n : Nat) :
    pullLoop vol [] bufR n = ([], [], [], bufR) := rfl

theorem pullLoop_zero (vol : ℚ) (cL : List ℚ) (restL bufR : List (List ℚ)) :
    pullLoop vol (cL :: restL) bufR 0 = ([], [], cL :: restL, bufR) := by
  simp [pullLoop]

theorem range_map_getD (c : List ℚ) (f : ℚ → ℚ) :
    ∀ k : Nat, k ≤ c.length →
      (List.range k).map (fun i => f (c.getD i 0)) = (c.take k).map f := by
  induction c with
  | nil =>
    intro k hk
    have hk0 : k = 0 := by simpa using hk
    subst hk0
    simp
  | cons a t ih =>
    intro k hk
    cases k with
    | zero => simp
    | succ m =>
      have hm : m ≤ t.length := by simpa using hk
      rw [List.range_succ_eq_map, List.map_cons, List.map_map, List.take_succ_cons,
        List.map_cons]
      congr 1
      have hfun : ((fun i => f ((a :: t).getD i 0)) ∘ Nat.succ) =
          fun i => f (t.getD i 0) := by
        funext i
        simp [Function.comp, List.getD_cons_succ]
      rw [hfun, ih m hm]

theorem pullLoop_cons_le (vol : ℚ) (cL cR : List ℚ) (restL restR : List (List ℚ))
    (n : Nat) (hn : n ≠ 0) (hlen : cL.length ≤ n) (hsync : cR.length = cL.length) :
    pullLoop vol (cL :: restL) (cR :: restR) n =
      ((cL.map (fun x => x * vol)) ++ (pullLoop vol restL restR (n - cL.length)).1,
       (cR.map (fun x => x * vol)) ++ (pullLoop vol restL restR (n - cL.length)).2.1,
       (pullLoop vol restL restR (n - cL.length)).2.2.1,
       (pullLoop vol restL restR (n - cL.length)).2.2.2) := by
  have hmin : min n cL.length = cL.length := Nat.min_eq_right hlen
  have hrange : (List.range cL.length).map (fun i => cR.getD i 0 * vol) =
      (cR.take cL.length).map (fun x => x * vol) :=
    range_map_getD cR (fun x => x * vol) cL.length (by omega)
  have htake : cR.take cL.length = cR := by
    rw [← hsync]
    exact List.take_length cR
  simp only [pullLoop, hn, if_neg, hmin, lt_irrefl, List.headD_cons, List.tail_cons,
    List.take_length, if_false]
  rw [hrange, htake]

/-- The copy loop never lets the two queues get different lengths when they
start with the same length; the guard tests only the left queue, but the
nil case can then only be reached with both queues empty. -/
theorem pullLoop_length_eq (vol : ℚ) :
    ∀ (bL bR : List (List ℚ)) (n : Nat), bL.length = bR.length →
      (pullLoop vol bL bR n).2.2.1.length = (pullLoop vol bL bR n).2.2.2.length := by
  intro bL
  induction bL with
  | nil =>
    intro bR n h
    rw [pullLoop_nil]
    simpa using h
  | cons cL restL ih =>
    intro bR n h
    by_cases hn : n = 0
    · subst hn
      rw [pullLoop_zero]
      simpa using h
    · cases bR with
      | nil => simp at h
      | cons cR restR =>
        simp only [List.length_cons, Nat.succ_inj] at h
        by_cases hc : min n cL.length < cL.length
        · simp only [pullLoop, hn, if_neg, hc, if_true, List.headD_cons, List.tail_cons,
            if_false, List.length_cons]
          omega
        · simp only [pullLoop, hn, hc, if_false, List.headD_cons, List.tail_cons]
          exact ih restR (n - min n cL.length) h

/-! ### Helper lemmas about the output callback -/

theorem audioProcess_muted (B : Nat) (st : AudioState) (h : st.muted = true) :
    audioProcess B st =
      ((List.replicate B 0, List.replicate B 0),
       { st with bufL := [], bufR := [] }) := by
  simp [audioProcess, h]

theorem audioProcess_empty (B : Nat) (st : AudioState) (h : st.muted = false)
    (hL : st.bufL = []) (hR : st.bufR = []) :
    audioProcess B st = ((List.replicate B 0, List.replicate B 0), st) := by
  obtain ⟨sL, sR, bL, bR, vol, m, c, nd, sus⟩ := st
  obtain rfl : bL = [] := hL
  obtain rfl : bR = [] := hR
  obtain rfl : m = false := h
  simp [audioProcess, pullLoop_nil]

theorem trim_le (bL bR : List (List ℚ)) (h : bL.length = bR.length) :
    (if 3 < bL.length then bL.drop (bL.length - 3) else bL).length ≤ 3 ∧
    (if 3 < bL.length then bR.drop (bR.length - 3) else bR).length ≤ 3 := by
  by_cases hgt : 3 < bL.length
  · simp only [hgt, if_true, List.length_drop]
    omega
  · simp only [hgt, if_false]
    omega

theorem audioProcess_bound (B : Nat) (st : AudioState) (h : st.muted = false)
    (hlen : st.bufL.length = st.bufR.length) :
    (audioProcess B st).2.bufL.length ≤ 3 ∧
    (audioProcess B st).2.bufR.length ≤ 3 := by
  have hpl := pullLoop_length_eq st.volume st.bufL st.bufR B hlen
  have htrim := trim_le (pullLoop st.volume st.bufL st.bufR B).2.2.1
    (pullLoop st.volume st.bufL st.bufR B).2.2.2 hpl
  simp only [audioProcess, h, Bool.false_eq_true, if_false]
  exact htrim

/-! ### Channel synchronisation lemmas -/

theorem sync_submit (l r : ℚ) (st : AudioState) (h : Sync st) :
    Sync (submit l r st) := by
  obtain ⟨hbuf, hstage⟩ := h
  have hlen : (st.stagingL ++ [l]).length = (st.stagingR ++ [r]).length := by
    simp [hstage]
  by_cases hc : 2048 ≤ (st.stagingL ++ [l]).length
  · simp only [submit, hc, if_true]
    exact ⟨List.rel_append hbuf (List.Forall₂.cons hlen List.Forall₂.nil), rfl⟩
  · simp only [submit, hc, if_false]
    exact ⟨hbuf, hlen⟩

theorem pullLoop_forall₂ (vol : ℚ) :
    ∀ (bL bR : List (List ℚ)) (n : Nat),
      List.Forall₂ (fun a b => a.length = b.length) bL bR →
      List.Forall₂ (fun a b => a.length = b.length)
        (pullLoop vol bL bR n).2.2.1 (pullLoop vol bL bR n).2.2.2 := by
  intro bL
  induction bL with
  | nil =>
    intro bR n h
    cases h
    rw [pullLoop_nil]
    exact List.Forall₂.nil
  | cons cL restL ih =>
    intro bR n h
    cases h with
    | cons hhead htail =>
      rename_i cR restR
      by_cases hn : n = 0
      · subst hn
        rw [pullLoop_zero]
        exact List.Forall₂.cons hhead htail
      · by_cases hc : min n cL.length < cL.length
        · simp only [pullLoop, hn, if_neg, hc, if_true, List.headD_cons, List.tail_cons,
            if_false]
          refine List.Forall₂.cons ?_ htail
          simp [List.length_drop, hhead]
        · simp only [pullLoop, hn, hc, if_false, List.headD_cons, List.tail_cons]
          exact ih restR (n - min n cL.length) htail

theorem sync_audioProcess (B : Nat) (st : AudioState) (h : Sync st) :
    Sync (audioProcess B st).2 := by
  obtain ⟨hbuf, hstage⟩ := h
  by_cases hm : st.muted = true
  · simp only [audioProcess, hm, if_true]
    exact ⟨List.Forall₂.nil, hstage⟩
  · simp only [audioProcess, hm, if_false]
    have hf := pullLoop_forall₂ st.volume st.bufL st.bufR B hbuf
    have hlen := List.Forall₂.length_eq hf
    refine ⟨?_, hstage⟩
    by_cases hgt : 3 < (pullLoop st.volume st.bufL st.bufR B).2.2.1.length
    · simp only [hgt, if_true]
      rw [hlen]
      exact List.forall₂_drop _ hf
    · simp only [hgt, if_false]
      exact hf

theorem sync_stop (st : AudioState) (h : Sync st) : Sync (stop st) :=
  ⟨List.Forall₂.nil, h.2⟩

theorem sync_step (st : AudioState) (op : Op) (h : Sync st) : Sync (step st op) := by
  cases op with
  | submit l r => exact sync_submit l r st h
  | process B => exact sync_audioProcess B st h
  | start =>
    by_cases hc : st.ctx = true
    · simpa only [step, start, hc, if_true] using h
    · simpa only [step, start, hc, if_false] using h
  | stop => exact sync_stop st h
  | resume =>
    by_cases hc : (st.ctx && st.suspended) = true
    · simpa only [step, resume, hc, if_true] using h
    · simpa only [step, resume, hc, if_false] using h
  | setVolume v => exact h
  | toggleMute => exact h

theorem sync_run (ops : List Op) (st : AudioState) (h : Sync st) :
    Sync (run ops st) := by
  induction ops generalizing st with
  | nil => exact h
  | cons op rest ih => exact ih (step st op) (sync_step st op h)

theorem sync_init : Sync initState := ⟨List.Forall₂.nil, rfl⟩

/-! ### Evaluation lemmas for the concrete scenarios -/

theorem chunk_length (x : ℚ) : (chunk x).length = 2048 := by
  simp only [chunk, List.length_replicate]

theorem replicate_join (a : ℚ) :
    List.replicate 2048 a ++ List.replicate 2048 a = List.replicate 4096 a := by
  rw [← List.replicate_add]

/-- Pulling from a queue headed by a full 2048-frame chunk with at least
2048 frames still wanted consumes the whole head chunk on both channels. -/
theorem pullLoop_chunk (vol a b : ℚ) (restL restR : List (List ℚ)) (n : Nat)
    (hn : 2048 ≤ n) :
    pullLoop vol (chunk a :: restL) (chunk b :: restR) n =
      (List.replicate 2048 (a * vol) ++ (pullLoop vol restL restR (n - 2048)).1,
       List.replicate 2048 (b * vol) ++ (pullLoop vol restL restR (n - 2048)).2.1,
       (pullLoop vol restL restR (n - 2048)).2.2.1,
       (pullLoop vol restL restR (n - 2048)).2.2.2) := by
  have hn0 : n ≠ 0 := by omega
  have hle : (chunk a).length ≤ n := by rw [chunk_length]; omega
  have hsync : (chunk b).length = (chunk a).length := by
    rw [chunk_length, chunk_length]
  rw [pullLoop_cons_le vol (chunk a) (chunk b) restL restR n hn0 hle hsync,
    chunk_length]
  simp only [chunk, List.map_replicate]

/-- The unmuted branch of the output callback, spelled out. -/
theorem audioProcess_unmuted (B : Nat) (st : AudioState) (h : st.muted = false) :
    audioProcess B st =
      (((pullLoop st.volume st.bufL st.bufR B).1 ++
          List.replicate (B - (pullLoop st.volume st.bufL st.bufR B).1.length) 0,
        (pullLoop st.volume st.bufL st.bufR B).2.1 ++
          List.replicate (B - (pullLoop st.volume st.bufL st.bufR B).2.1.length) 0),
       { st with
         bufL := if 3 < (pullLoop st.volume st.bufL st.bufR B).2.2.1.length then
             (pullLoop st.volume st.bufL st.bufR B).2.2.1.drop
               ((pullLoop st.volume st.bufL st.bufR B).2.2.1.length - 3)
           else (pullLoop st.volume st.bufL st.bufR B).2.2.1,
         bufR := if 3 < (pullLoop st.volume st.bufL st.bufR B).2.2.1.length then
             (pullLoop st.volume st.bufL st.bufR B).2.2.2.drop
               ((pullLoop st.volume st.bufL st.bufR B).2.2.2.length - 3)
           else (pullLoop st.volume st.bufL st.bufR B).2.2.2 }) := by
  simp only [audioProcess, h, Bool.false_eq_true, if_false]

theorem run_cons (op : Op) (ops : List Op) (st : AudioState) :
    run (op :: ops) st = run ops (step st op) := rfl

theorem run_submit_replicate (k : Nat) (l r : ℚ) (st : AudioState) :
    run (List.replicate k (Op.submit l r)) st =
      submitMany (List.replicate k (l, r)) st := by
  induction k generalizing st with
  | zero => rfl
  | succ m ih =>
    rw [List.replicate_succ, List.replicate_succ, run_cons]
    exact ih (step st (Op.submit l r))

/-- Pushing one full chunk onto a state whose staging arrays are empty,
stated on an explicit record so that consecutive rewrites stay
syntactically stable. -/
theorem submitMany_chunk_state (l r : ℚ) (sL sR : List (List ℚ)) (vol : ℚ)
    (m c nd sus : Bool) :
    submitMany (List.replicate 2048 (l, r))
        { stagingL := [], stagingR := [], bufL := sL, bufR := sR,
          volume := vol, muted := m, ctx := c, node := nd, suspended := sus } =
      { stagingL := [], stagingR := [], bufL := sL ++ [List.replicate 2048 l],
        bufR := sR ++ [List.replicate 2048 r], volume := vol, muted := m,
        ctx := c, node := nd, suspended := sus } :=
  submitMany_replicate_chunk l r
    { stagingL := [], stagingR := [], bufL := sL, bufR := sR,
      volume := vol, muted := m, ctx := c, node := nd, suspended := sus }
    rfl rfl

/-- After submitting three full chunks of the constant frame (1, -1) into a
fresh handler, the queues hold three constant chunks and the staging arrays
are empty. -/
theorem submitMany_threeChunks :
    submitMany (List.replicate 6144 ((1 : ℚ), (-1 : ℚ))) initState =
      { stagingL := [], stagingR := [],
        bufL := [chunk 1, chunk 1, chunk 1],
        bufR := [chunk (-1), chunk (-1), chunk (-1)],
        volume := 1, muted := false, ctx := false, node := false,
        suspended := false } := by
  have h6144 : (6144 : Nat) = 2048 + (2048 + 2048) := by norm_num
  rw [h6144, List.replicate_add, List.replicate_add, submitMany_append,
    submitMany_append]
  rw [submitMany_replicate_chunk 1 (-1) initState rfl rfl]
  rw [submitMany_chunk_state, submitMany_chunk_state]
  simp only [chunk, initState, List.nil_append, List.cons_append, List.append_nil]

/-- Submitting four full chunks (8192 samples) of the constant frame
(1, -1) into a fresh handler leaves four chunks buffered. -/
theorem submitMany_fourConstChunks :
    submitMany (List.replicate 8192 ((1 : ℚ), (-1 : ℚ))) initState =
      { stagingL := [], stagingR := [],
        bufL := [chunk 1, chunk 1, chunk 1, chunk 1],
        bufR := [chunk (-1), chunk (-1), chunk (-1), chunk (-1)],
        volume := 1, muted := false, ctx := false, node := false,
        suspended := false } := by
  have h8192 : (8192 : Nat) = 2048 + (2048 + (2048 + 2048)) := by norm_num
  rw [h8192, List.replicate_add, List.replicate_add, List.replicate_add,
    submitMany_append, submitMany_append, submitMany_append]
  rw [submitMany_replicate_chunk 1 (-1) initState rfl rfl]
  rw [submitMany_chunk_state, submitMany_chunk_state, submitMany_chunk_state]
  simp only [chunk, initState, List.nil_append, List.cons_append, List.append_nil]

theorem submitMany_fourChunks :
    submitMany fourChunksInput initState =
      { stagingL := [], stagingR := [],
        bufL := [chunk 1, chunk 2, chunk 3, chunk 4],
        bufR := [chunk 1, chunk 2, chunk 3, chunk 4],
        volume := 1, muted := false, ctx := false, node := false,
        suspended := false } := by
  rw [fourChunksInput, submitMany_append, submitMany_append, submitMany_append]
  rw [submitMany_replicate_chunk 1 1 initState rfl rfl]
  rw [submitMany_replicate_chunk 2 2 _ rfl rfl]
  rw [submitMany_replicate_chunk 3 3 _ rfl rfl]
  rw [submitMany_replicate_chunk 4 4 _ rfl rfl]
  simp only [chunk, initState, List.nil_append, List.cons_append, List.append_nil]

theorem pullLoop_zero_any (vol : ℚ) (bL bR : List (List ℚ)) :
    pullLoop vol bL bR 0 = ([], [], bL, bR) := by
  cases bL with
  | nil => rfl
  | cons c rest => exact pullLoop_zero vol c rest bR

/-- The unmuted output callback on an explicit record, so consecutive
rewrites stay syntactically stable. -/
theorem audioProcess_unmuted_mk (B : Nat) (gL gR : List ℚ)
    (bL bR : List (List ℚ)) (vol : ℚ) (c nd sus : Bool) :
    audioProcess B
        { stagingL := gL, stagingR := gR, bufL := bL, bufR := bR,
          volume := vol, muted := false, ctx := c, node := nd,
          suspended := sus } =
      (((pullLoop vol bL bR B).1 ++
          List.replicate (B - (pullLoop vol bL bR B).1.length) 0,
        (pullLoop vol bL bR B).2.1 ++
          List.replicate (B - (pullLoop vol bL bR B).2.1.length) 0),
       { stagingL := gL, stagingR := gR,
         bufL := if 3 < (pullLoop vol bL bR B).2.2.1.length then
             (pullLoop vol bL bR B).2.2.1.drop
               ((pullLoop vol bL bR B).2.2.1.length - 3)
           else (pullLoop vol bL bR B).2.2.1,
         bufR := if 3 < (pullLoop vol bL bR B).2.2.1.length then
             (pullLoop vol bL bR B).2.2.2.drop
               ((pullLoop vol bL bR B).2.2.2.length - 3)
           else (pullLoop vol bL bR B).2.2.2,
         volume := vol, muted := false, ctx := c, node := nd,
         suspended := sus }) :=
  audioProcess_unmuted B _ rfl

/-- Draining two of the three buffered constant chunks with one 4096-frame
block at volume 1. -/
theorem pullLoop_threeConst :
    pullLoop 1 [chunk 1, chunk 1, chunk 1]
        [chunk (-1), chunk (-1), chunk (-1)] 4096 =
      (List.replicate 4096 1, List.replicate 4096 (-1),
       [chunk 1], [chunk (-1)]) := by
  have hs1 : (4096 : Nat) - 2048 = 2048 := by norm_num
  have hs2 : (2048 : Nat) - 2048 = 0 := by norm_num
  rw [pullLoop_chunk 1 1 (-1) _ _ 4096 (by norm_num), hs1,
    pullLoop_chunk 1 1 (-1) _ _ 2048 (by norm_num), hs2, pullLoop_zero_any]
  simp only [mul_one, List.append_nil, replicate_join]

/-- One 4096-frame unmuted block on the three-constant-chunk state: the
output is 4096 frames of (1, -1) and one chunk stays buffered. -/
theorem process_threeConst :
    audioProcess 4096
        { stagingL := [], stagingR := [],
          bufL := [chunk 1, chunk 1, chunk 1],
          bufR := [chunk (-1), chunk (-1), chunk (-1)],
          volume := 1, muted := false, ctx := false, node := false,
          suspended := false } =
      ((List.replicate 4096 1, List.replicate 4096 (-1)),
       { stagingL := [], stagingR := [], bufL := [chunk 1],
         bufR := [chunk (-1)], volume := 1, muted := false, ctx := false,
         node := false, suspended := false }) := by
  rw [audioProcess_unmuted_mk, pullLoop_threeConst]
  have hlt : ¬ 3 < ([chunk 1] : List (List ℚ)).length := by
    simp only [List.length_cons, List.length_nil]
    omega
  simp only [List.length_replicate, Nat.sub_self, List.replicate_zero,
    List.append_nil, hlt, if_false]

/-- One full-chunk pull step: an unmuted 2048-frame block at volume 1 on a
queue headed by full chunks returns the head chunks and pops them, with no
trim as long as at most three chunks remain. -/
theorem process_chunk_step (a b : ℚ) (restL restR : List (List ℚ))
    (gL gR : List ℚ) (c nd sus : Bool) (h3 : restL.length ≤ 3) :
    audioProcess 2048
        { stagingL := gL, stagingR := gR, bufL := chunk a :: restL,
          bufR := chunk b :: restR, volume := 1, muted := false,
          ctx := c, node := nd, suspended := sus } =
      ((chunk a, chunk b),
       { stagingL := gL, stagingR := gR, bufL := restL, bufR := restR,
         volume := 1, muted := false, ctx := c, node := nd,
         suspended := sus }) := by
  have hs2 : (2048 : Nat) - 2048 = 0 := by norm_num
  rw [audioProcess_unmuted_mk,
    pullLoop_chunk 1 a b restL restR 2048 (by norm_num), hs2, pullLoop_zero_any]
  have hlt : ¬ 3 < restL.length := by omega
  simp only [mul_one, List.append_nil, List.length_replicate, Nat.sub_self,
    List.replicate_zero, hlt, if_false, chunk]

/-- An unmuted block on an empty queue at an explicit record state: pure
silence, state unchanged. -/
theorem process_empty (B : Nat) (gL gR : List ℚ) (vol : ℚ)
    (c nd sus : Bool) :
    audioProcess B
        { stagingL := gL, stagingR := gR, bufL := [], bufR := [],
          volume := vol, muted := false, ctx := c, node := nd,
          suspended := sus } =
      ((List.replicate B 0, List.replicate B 0),
       { stagingL := gL, stagingR := gR, bufL := [], bufR := [],
         volume := vol, muted := false, ctx := c, node := nd,
         suspended := sus }) :=
  audioProcess_empty B _ rfl rfl rfl

/-! ### Claim theorems -/

/-- C1, counterexample: submitting four full chunks (8192 samples) from a
fresh state, with no output-driver invocation, ends right after a push (the
staging arrays have just been reset) with 4 chunks buffered, violating the
claimed bound of MAX_DEPTH = 3 after any push. -/
theorem claim_C1_counterexample :
    (submitMany (List.replicate 8192 ((1 : ℚ), (-1 : ℚ))) initState).stagingL
      = [] ∧
    (submitMany (List.replicate 8192 ((1 : ℚ), (-1 : ℚ))) initState).bufL.length
      = 4 := by
  rw [submitMany_fourConstChunks]
  exact ⟨rfl, rfl⟩

/-- C1, amended: pushes themselves are unbounded; what holds is that after
any sequence of operations starting from a fresh handler, an unmuted
output-driver invocation leaves at most 3 chunks buffered on both
channels. -/
theorem claim_C1 (ops : List Op) (B : Nat)
    (h : (run ops initState).muted = false) :
    (audioProcess B (run ops initState)).2.bufL.length ≤ 3 ∧
    (audioProcess B (run ops initState)).2.bufR.length ≤ 3 := by
  have hs := sync_run ops initState sync_init
  exact audioProcess_bound B _ h (List.Forall₂.length_eq hs.1)

/-- C1, witness for the amended theorem at the empty trace. -/
theorem claim_C1_witness :
    (run [] initState).muted = false ∧
    (audioProcess 4096 (run [] initState)).2.bufL.length ≤ 3 ∧
    (audioProcess 4096 (run [] initState)).2.bufR.length ≤ 3 :=
  ⟨rfl, (claim_C1 [] 4096 rfl).1, (claim_C1 [] 4096 rfl).2⟩

/-- C2, counterexample: after submitting four full chunks with values
1, 2, 3, 4 and no pull, the buffer holds all four chunks (chunk 1 is not
evicted), not just chunks 2, 3, 4. -/
theorem claim_C2_counterexample :
    (submitMany fourChunksInput initState).bufL =
      [chunk 1, chunk 2, chunk 3, chunk 4] ∧
    (submitMany fourChunksInput initState).bufL ≠
      [chunk 2, chunk 3, chunk 4] := by
  rw [submitMany_fourChunks]
  refine ⟨rfl, fun hcontra => ?_⟩
  have hlen := congrArg List.length hcontra
  simp only [List.length_cons, List.length_nil] at hlen
  omega

/-- C2, amended: submitting 4 full chunks (8192 samples) with no
intervening pull leaves the buffer containing chunks 1, 2, 3 and 4 in that
order (no eviction happens at submit time), and each of the four chunks is
then recoverable via successive 2048-frame unmuted pulls in submission
order, leaving the buffer empty. -/
theorem claim_C2 :
    (submitMany fourChunksInput initState).bufL =
      [chunk 1, chunk 2, chunk 3, chunk 4] ∧
    (submitMany fourChunksInput initState).bufR =
      [chunk 1, chunk 2, chunk 3, chunk 4] ∧
    (let s0 := submitMany fourChunksInput initState
     let p1 := audioProcess 2048 s0
     let p2 := audioProcess 2048 p1.2
     let p3 := audioProcess 2048 p2.2
     let p4 := audioProcess 2048 p3.2
     p1.1 = (chunk 1, chunk 1) ∧ p2.1 = (chunk 2, chunk 2) ∧
     p3.1 = (chunk 3, chunk 3) ∧ p4.1 = (chunk 4, chunk 4) ∧
     p4.2.bufL = [] ∧ p4.2.bufR = []) := by
  dsimp only
  rw [submitMany_fourChunks]
  rw [process_chunk_step 1 1 [chunk 2, chunk 3, chunk 4]
    [chunk 2, chunk 3, chunk 4] [] [] false false false
    (by simp only [List.length_cons, List.length_nil]; omega)]
  dsimp only
  rw [process_chunk_step 2 2 [chunk 3, chunk 4] [chunk 3, chunk 4] [] []
    false false false (by simp only [List.length_cons, List.length_nil]; omega)]
  dsimp only
  rw [process_chunk_step 3 3 [chunk 4] [chunk 4] [] [] false false false
    (by simp only [List.length_cons, List.length_nil]; omega)]
  dsimp only
  rw [process_chunk_step 4 4 [] [] [] [] false false false
    (by simp only [List.length_nil]; omega)]
  exact ⟨rfl, rfl, rfl, rfl, rfl, rfl, rfl, rfl⟩

/-- C3, counterexample: a reachable state (start, then 2048 submitted
samples) has a buffered chunk, and resume leaves it buffered, so the
buffer is not empty when playback continues. -/
theorem claim_C3_counterexample :
    (resume (run (Op.start :: List.replicate 2048 (Op.submit 1 1))
        initState)).bufL = [List.replicate 2048 1] ∧
    [List.replicate 2048 (1 : ℚ)] ≠ ([] : List (List ℚ)) := by
  constructor
  · rw [run_cons]
    have hstart : step initState Op.start =
        { stagingL := [], stagingR := [], bufL := [], bufR := [],
          volume := 1, muted := false, ctx := true, node := true,
          suspended := false } := rfl
    rw [hstart, run_submit_replicate, submitMany_chunk_state]
    rfl
  · intro h
    have hlen := congrArg List.length h
    simp only [List.length_cons, List.length_nil] at hlen
    omega

/-- C3, amended: resume never modifies the chunk buffer — audio buffered
while paused is retained, not discarded. -/
theorem claim_C3 (st : AudioState) :
    (resume st).bufL = st.bufL ∧ (resume st).bufR = st.bufR := by
  unfold resume
  split
  · exact ⟨rfl, rfl⟩
  · exact ⟨rfl, rfl⟩

/-- C4: whenever muted holds at the start of an output-driver invocation
with block length B, the written block is exactly B frames of zeros on both
channels and the chunk buffer is empty immediately after, for every buffer
contents and volume. -/
theorem claim_C4 (B : Nat) (st : AudioState) (h : st.muted = true) :
    audioProcess B st =
      ((List.replicate B 0, List.replicate B 0),
       { st with bufL := [], bufR := [] }) :=
  audioProcess_muted B st h

/-- C4, witness: a muted state with a buffered chunk on each channel. -/
theorem claim_C4_witness :
    ({ initState with muted := true, bufL := [[5]], bufR := [[6]] }
        : AudioState).muted = true ∧
    audioProcess 2
        { initState with muted := true, bufL := [[5]], bufR := [[6]] } =
      ((List.replicate 2 0, List.replicate 2 0),
       { initState with muted := true }) :=
  ⟨rfl, claim_C4 2 _ rfl⟩

/-- C5: FIFO delivery, end-to-end — after submitting 6144 samples of the
constant frame (1, -1) into a fresh handler, a 4096-frame unmuted block
returns 4096 frames of (1, -1), a following 2048-frame block returns the
remaining 2048 frames, the buffer is then empty, and every further block
of any length returns only silence and leaves the state unchanged. -/
theorem claim_C5 :
    (let s0 := submitMany (List.replicate 6144 ((1 : ℚ), (-1 : ℚ))) initState
     let p1 := audioProcess 4096 s0
     let p2 := audioProcess 2048 p1.2
     p1.1 = (List.replicate 4096 1, List.replicate 4096 (-1)) ∧
     p2.1 = (List.replicate 2048 1, List.replicate 2048 (-1)) ∧
     p2.2.bufL = [] ∧ p2.2.bufR = [] ∧
     ∀ B : Nat, audioProcess B p2.2 =
       ((List.replicate B 0, List.replicate B 0), p2.2)) := by
  dsimp only
  rw [submitMany_threeChunks, process_threeConst]
  dsimp only
  rw [process_chunk_step 1 (-1) [] [] [] [] false false false
    (by simp only [List.length_nil]; omega)]
  refine ⟨rfl, ?_, rfl, rfl, ?_⟩
  · dsimp only [chunk]
  · intro B
    exact process_empty B [] [] 1 false false false

/-- C6: an output-driver invocation with an empty chunk buffer and muted
false writes exactly B frames of silence on both channels, consumes
nothing and leaves the state unchanged, for every block length and
volume; starvation raises no error. -/
theorem claim_C6 (B : Nat) (st : AudioState) (hm : st.muted = false)
    (hL : st.bufL = []) (hR : st.bufR = []) :
    audioProcess B st = ((List.replicate B 0, List.replicate B 0), st) :=
  audioProcess_empty B st hm hL hR

/-- C6, witness: a fresh state at volume 1/2 and block length 3. -/
theorem claim_C6_witness :
    ({ initState with volume := 1/2 } : AudioState).muted = false ∧
    ({ initState with volume := 1/2 } : AudioState).bufL = [] ∧
    ({ initState with volume := 1/2 } : AudioState).bufR = [] ∧
    audioProcess 3 { initState with volume := 1/2 } =
      ((List.replicate 3 0, List.replicate 3 0),
       { initState with volume := 1/2 }) :=
  ⟨rfl, rfl, rfl, claim_C6 3 _ rfl rfl rfl⟩

/-- C7: setVolume stores the clamp of its argument into [0, 1] — the
stored value is read back, lies in [0, 1], equals the argument when the
argument already lies in [0, 1], and saturates at the nearer endpoint
otherwise. -/
theorem claim_C7 (v : ℚ) (st : AudioState) :
    getVolume (setVolume v st) = max 0 (min 1 v) ∧
    0 ≤ getVolume (setVolume v st) ∧
    getVolume (setVolume v st) ≤ 1 ∧
    (0 ≤ v → v ≤ 1 → getVolume (setVolume v st) = v) ∧
    (v ≤ 0 → getVolume (setVolume v st) = 0) ∧
    (1 ≤ v → getVolume (setVolume v st) = 1) := by
  refine ⟨rfl, le_max_left 0 _, max_le (by norm_num) (min_le_left 1 v),
    ?_, ?_, ?_⟩
  · intro h0 h1
    show max 0 (min 1 v) = v
    rw [min_eq_right h1, max_eq_right h0]
  · intro h0
    show max 0 (min 1 v) = 0
    rw [min_eq_right (le_trans h0 (by norm_num)), max_eq_left h0]
  · intro h1
    show max 0 (min 1 v) = 1
    rw [min_eq_left h1, max_eq_right (by norm_num)]

/-- C7, witness: an out-of-range input saturates at 1 and is read back. -/
theorem claim_C7_witness :
    getVolume (setVolume 2 initState) = max 0 (min 1 2) ∧
    (1 : ℚ) ≤ 2 ∧ getVolume (setVolume 2 initState) = 1 :=
  ⟨(claim_C7 2 initState).1, by norm_num,
   (claim_C7 2 initState).2.2.2.2.2 (by norm_num)⟩

/-- C8: start is idempotent (the second of two consecutive calls changes
nothing and raises no error), and stop in the Stopped state is a no-op. -/
theorem claim_C8 :
    (∀ st : AudioState, start (start st) = start st) ∧
    (∀ st : AudioState, Stopped st → stop st = st) := by
  constructor
  · intro st
    by_cases h : st.ctx = true <;> simp [start, h]
  · intro st h
    obtain ⟨sL, sR, bL, bR, vol, m, c, nd, sus⟩ := st
    obtain ⟨h1, h2, h3, h4⟩ := h
    obtain rfl : c = false := h1
    obtain rfl : nd = false := h2
    obtain rfl : bL = [] := h3
    obtain rfl : bR = [] := h4
    rfl

/-- C8, witness: both parts at the fresh state, which is Stopped. -/
theorem claim_C8_witness :
    Stopped initState ∧
    start (start initState) = start initState ∧
    stop initState = initState :=
  ⟨⟨rfl, rfl, rfl, rfl⟩, claim_C8.1 initState,
   claim_C8.2 initState ⟨rfl, rfl, rfl, rfl⟩⟩

/-- C9: the sample-submission callback, the output callback (muted or not)
and stop each preserve channel synchronisation: the two chunk queues keep
equal length with corresponding chunks of equal length, and the staging
arrays keep equal length. -/
theorem claim_C9 (st : AudioState) (l r : ℚ) (B : Nat) (h : Sync st) :
    Sync (submit l r st) ∧ Sync (audioProcess B st).2 ∧ Sync (stop st) :=
  ⟨sync_submit l r st h, sync_audioProcess B st h, sync_stop st h⟩

/-- C9, witness: the fresh state is synchronised and stays so under each
operation. -/
theorem claim_C9_witness :
    Sync initState ∧
    (Sync (submit 1 2 initState) ∧ Sync (audioProcess 4 initState).2 ∧
     Sync (stop initState)) :=
  ⟨⟨List.Forall₂.nil, rfl⟩, claim_C9 initState 1 2 4 ⟨List.Forall₂.nil, rfl⟩⟩

/-- C10: at the completion of every unmuted output-driver invocation on a
well-formed state (queues of equal length), at most 3 chunks remain
buffered on each channel; the trim at the end of the callback discards any
excess oldest chunks. -/
theorem claim_C10 (B : Nat) (st : AudioState) (hm : st.muted = false)
    (hlen : st.bufL.length = st.bufR.length) :
    (audioProcess B st).2.bufL.length ≤ 3 ∧
    (audioProcess B st).2.bufR.length ≤ 3 :=
  audioProcess_bound B st hm hlen

/-- C10, witness: a five-chunk backlog is trimmed to the bound by one
unmuted invocation. -/
theorem claim_C10_witness :
    ({ initState with bufL := [[1], [2], [3], [4], [5]], bufR := [[1], [2], [3], [4], [5]] } : AudioState).muted = false ∧
    (audioProcess 1 { initState with bufL := [[1], [2], [3], [4], [5]], bufR := [[1], [2], [3], [4], [5]] }).2.bufL.length ≤ 3 ∧
    (audioProcess 1 { initState with bufL := [[1], [2], [3], [4], [5]], bufR := [[1], [2], [3], [4], [5]] }).2.bufR.length ≤ 3 :=
  ⟨rfl, (claim_C10 1 _ rfl rfl).1, (claim_C10 1 _ rfl rfl).2⟩

end NesArcade
